import Mathlib

/-!
Verification of the SMS-ingestion pipeline of `src/process_sms.ts`
(momo-backend).  The regexes of the source are embedded as deterministic
first-match scanners over `List Char`; the record builder and the batch
orchestrator are embedded as pure functions, with the persistence
collaborator abstracted as an oracle `TransactionRecord → SaveOutcome`.
-/

/-- ASCII lower-casing, as the `i` flag of a JavaScript regex applies it
to ASCII letters. -/
def lowerCh (c : Char) : Char :=
  if 'A' ≤ c ∧ c ≤ 'Z' then Char.ofNat (c.toNat + 32) else c

/-- The whitespace class of a JavaScript regex (ASCII part). -/
def isSpaceJS (c : Char) : Bool :=
  c == ' ' || c == '\t' || c == '\n' || c == '\r' || c == '\x0b' || c == '\x0c'

/-- Character class of the source pattern given by a backslash d or a comma. -/
def isDigitComma (c : Char) : Bool :=
  c.isDigit || c == ','

/-- Character class of a JavaScript word character or a hyphen. -/
def isWordHy (c : Char) : Bool :=
  c.isAlphanum || c == '_' || c == '-'

/-- Decimal value of a run of digit characters, as parseInt reads it. -/
def digitsToNat (l : List Char) : Nat :=
  l.foldl (fun n c => n * 10 + (c.toNat - 48)) 0

/-- parseInt applied to an already comma-stripped capture: an empty string
gives NaN, a run of digits gives its value. -/
inductive JsNum where
  | nan : JsNum
  | val : Int → JsNum
deriving DecidableEq, Repr

/-- Whether a JavaScript number compares below zero (NaN does not). -/
def JsNum.isNeg : JsNum → Bool
  | .nan => false
  | .val n => n < 0

def jsParseInt (l : List Char) : JsNum :=
  match l with
  | [] => .nan
  | _ => .val (digitsToNat l)

/-- Match a literal at the head of the input, returning the rest. -/
def stripLit (lit l : List Char) : Option (List Char) :=
  if lit.isPrefixOf l then some (l.drop lit.length) else none

/-- Case-insensitive literal test: the literal is given lower-case and the
input is lowered character by character. -/
def ciPrefixOf : List Char → List Char → Bool
  | [], _ => true
  | _ :: _, [] => false
  | a :: as, b :: bs => (a == lowerCh b) && ciPrefixOf as bs

/-- Case-insensitive version of `stripLit`. -/
def stripLitCI (lit l : List Char) : Option (List Char) :=
  if ciPrefixOf lit l then some (l.drop lit.length) else none

/-- Leftmost-match scan: try the matcher at every start position, as a
JavaScript regex search does. -/
def scanFirst (m : List Char → Option α) : List Char → Option α
  | [] => m []
  | c :: cs =>
    match m (c :: cs) with
    | some r => some r
    | none => scanFirst m cs

/-- The trim method of JavaScript strings, on the ASCII whitespace part. -/
def trimJS (l : List Char) : List Char :=
  ((l.dropWhile isSpaceJS).reverse.dropWhile isSpaceJS).reverse

/-- Optional colon of the patterns: consume one leading colon when
present. -/
def skipColon (l : List Char) : List Char :=
  match l with
  | ':' :: t => t
  | _ => l

/-- Matcher at one position for the amount pattern of `extractAmount`:
a digit run, optional whitespace, then the literal RWF (the input has
already had its commas removed). -/
def amountMatchAt (l : List Char) : Option Nat :=
  let ds := l.takeWhile Char.isDigit
  if ds.isEmpty then none
  else
    let r := (l.dropWhile Char.isDigit).dropWhile isSpaceJS
    if "RWF".toList.isPrefixOf r then some (digitsToNat ds) else none

/-- Matcher at one position for the date pattern of `extractDate`:
four digits, dash, two digits, dash, two digits, space, two digits,
colon, two digits, colon, two digits; returns the matched text. -/
def dateMatchAt (l : List Char) : Option String :=
  match l with
  | y1 :: y2 :: y3 :: y4 :: '-' :: m1 :: m2 :: '-' :: d1 :: d2 :: ' ' ::
      h1 :: h2 :: ':' :: n1 :: n2 :: ':' :: s1 :: s2 :: _ =>
    if y1.isDigit && y2.isDigit && y3.isDigit && y4.isDigit &&
       m1.isDigit && m2.isDigit && d1.isDigit && d2.isDigit &&
       h1.isDigit && h2.isDigit && n1.isDigit && n2.isDigit &&
       s1.isDigit && s2.isDigit then
      some (String.mk [y1, y2, y3, y4, '-', m1, m2, '-', d1, d2, ' ',
                       h1, h2, ':', n1, n2, ':', s1, s2])
    else none
  | _ => none

/-- Matcher at one position for the fee pattern of `main`: the literal
Fee, a space, was or paid, an optional colon, whitespace, a nonempty run
of digits and commas (the capture), a space and the literal RWF.  The
source regex has no i flag, so every literal is case-sensitive. -/
def feeMatchAt (l : List Char) : Option (List Char) :=
  match stripLit "Fee ".toList l with
  | none => none
  | some r1 =>
    match (stripLit "was".toList r1).orElse (fun _ => stripLit "paid".toList r1) with
    | none => none
    | some r2 =>
      let r3 := skipColon r2
      let r4 := r3.dropWhile isSpaceJS
      let cap := r4.takeWhile isDigitComma
      if cap.isEmpty then none
      else if " RWF".toList.isPrefixOf (r4.dropWhile isDigitComma) then some cap
      else none

/-- Modelled from the spec: the fee extractor as the specification words
it, with the was and paid labels matched case-insensitively.  It exists
only to be compared with `feeMatchAt`, the extractor of the source. -/
def feeMatchCIAt (l : List Char) : Option (List Char) :=
  match stripLitCI "fee ".toList l with
  | none => none
  | some r1 =>
    match (stripLitCI "was".toList r1).orElse (fun _ => stripLitCI "paid".toList r1) with
    | none => none
    | some r2 =>
      let r3 := skipColon r2
      let r4 := r3.dropWhile isSpaceJS
      let cap := r4.takeWhile isDigitComma
      if cap.isEmpty then none
      else if " RWF".toList.isPrefixOf (r4.dropWhile isDigitComma) then some cap
      else none

/-- Matcher at one position for the balance pattern of `main`: the regex
carries the i flag, so every literal is case-insensitive. -/
def balanceMatchAt (l : List Char) : Option (List Char) :=
  match stripLitCI "balance".toList l with
  | none => none
  | some r1 =>
    let r2 := skipColon r1
    let r3 := r2.dropWhile isSpaceJS
    let cap := r3.takeWhile isDigitComma
    if cap.isEmpty then none
    else if ciPrefixOf " rwf".toList (r3.dropWhile isDigitComma) then some cap
    else none

/-- Matcher at one position for the transaction-id pattern of `main`
(case-insensitive label, optional colon, whitespace, digit run). -/
def transIdMatchAt (l : List Char) : Option (List Char) :=
  match stripLitCI "transaction id".toList l with
  | none => none
  | some r1 =>
    let r2 := skipColon r1
    let r3 := r2.dropWhile isSpaceJS
    let cap := r3.takeWhile Char.isDigit
    if cap.isEmpty then none else some cap

/-- Matcher at one position for the TxId fallback pattern of `main`. -/
def txIdMatchAt (l : List Char) : Option (List Char) :=
  match stripLitCI "txid".toList l with
  | none => none
  | some r1 =>
    let r2 := skipColon r1
    let r3 := r2.dropWhile isSpaceJS
    let cap := r3.takeWhile Char.isDigit
    if cap.isEmpty then none else some cap

/-- Matcher at one position for the external-transaction-id pattern of
`main` (case-insensitive label, optional colon, whitespace, a nonempty
run of word characters and hyphens). -/
def extIdMatchAt (l : List Char) : Option (List Char) :=
  match stripLitCI "external transaction id".toList l with
  | none => none
  | some r1 =>
    let r2 := skipColon r1
    let r3 := r2.dropWhile isSpaceJS
    let cap := r3.takeWhile isWordHy
    if cap.isEmpty then none else some cap

/-- Matcher at one position for the sender pattern of
`extractSenderReceiver`: after the literal from and a space, the capture
is the run of characters other than an opening parenthesis; backtracking
of the greedy capture makes the pattern match exactly when that run ends
with a space immediately followed by the parenthesis, the capture being
the run without its final space. -/
def senderMatchAt (l : List Char) : Option (List Char) :=
  match stripLit "from ".toList l with
  | none => none
  | some rest =>
    let r := rest.takeWhile (fun c => !(c == '('))
    let after := rest.dropWhile (fun c => !(c == '('))
    if after.isEmpty then none
    else
      match r.getLast? with
      | some ' ' =>
        let cap := r.dropLast
        if cap.isEmpty then none else some cap
      | _ => none

/-- Largest capture end for the parenthesis alternative of the receiver
pattern: the greatest index j of r, with a nonempty capture before it,
such that r carries an opening parenthesis at j, or a space at j
immediately followed by the parenthesis. -/
def bestParenIdx (r : List Char) : Option Nat :=
  ((List.range r.length).filter (fun j =>
    decide (1 ≤ j) &&
    ((r.get? j == some '(') ||
     ((r.get? j == some ' ') && (r.get? (j + 1) == some '('))))).getLast?

/-- Matcher at one position for the receiver pattern of
`extractSenderReceiver`: after the literal to and a space, a nonempty run
of non-digit characters (the capture), an optional space, then a digit
run or an opening parenthesis.  When a digit follows the maximal
non-digit run the greedy capture is that whole run; otherwise
backtracking stops at the last parenthesis position inside it. -/
def receiverMatchAt (l : List Char) : Option (List Char) :=
  match stripLit "to ".toList l with
  | none => none
  | some rest =>
    let r := rest.takeWhile (fun c => !c.isDigit)
    let after := rest.dropWhile (fun c => !c.isDigit)
    if r.isEmpty then none
    else if !after.isEmpty then some r
    else
      match bestParenIdx r with
      | some j => some (r.take j)
      | none => none

/-- Helper function extractAmount of the source: null on a missing or
empty input, else the commas are removed and the first match of the
amount pattern is parsed. -/
def extractAmount (input : Option String) : Option Nat :=
  match input with
  | none => none
  | some s =>
    if s = "" then none
    else scanFirst amountMatchAt (s.toList.filter (fun c => !(c == ',')))

/-- Helper function extractDate of the source: null on a missing or empty
input, else the first substring in date shape (the Date value it is
parsed into is kept abstract as the matched text). -/
def extractDate (input : Option String) : Option String :=
  match input with
  | none => none
  | some s =>
    if s = "" then none
    else scanFirst dateMatchAt s.toList

/-- Substring occurrence test at any position. -/
def containsSub (lit : List Char) : List Char → Bool
  | [] => lit.isPrefixOf []
  | c :: cs => lit.isPrefixOf (c :: cs) || containsSub lit cs

/-- Substring test, as a test of a regex of one literal. -/
def hasSub (l : List Char) (lit : String) : Bool :=
  containsSub lit.toList l

/-- Case-insensitive substring test (the literal is given lower-case). -/
def hasSubCI (l : List Char) (lit : String) : Bool :=
  containsSub lit.toList (l.map lowerCh)

/-- Function categorizeSMS of the source: Unknown on a falsy body, else
the ten rules in source order, first match wins, Other when none fires. -/
def categorizeSMS (body : Option String) : String :=
  match body with
  | none => "Unknown"
  | some b =>
    if b = "" then "Unknown"
    else if hasSub b.toList "received" && hasSub b.toList "from" then "Incoming Money"
    else if hasSub b.toList "payment of" && hasSub b.toList "to" then "Payments to Code Holders"
    else if hasSub b.toList "transferred to" && hasSub b.toList "from" then "Transfers to Mobile Numbers"
    else if hasSub b.toList "bank deposit" then "Bank Deposits"
    else if hasSub b.toList "Airtime" then "Airtime Bill Payments"
    else if hasSub b.toList "Cash Power" then "Cash Power Bill Payments"
    else if hasSub b.toList "by" && hasSub b.toList "on your MOMO account" then "Transactions Initiated by Third Parties"
    else if hasSub b.toList "withdrawn" && hasSub b.toList "agent" then "Withdrawals from Agents"
    else if hasSub b.toList "External Transaction Id" then "Bank Transfers"
    else if hasSubCI b.toList "bundles and packs" || hasSubCI b.toList "internet" || hasSubCI b.toList "voice bundle" then "Internet and Voice Bundle Purchases"
    else "Other"

/-- Helper interface SenderReceiver of the source. -/
structure SenderReceiver where
  sender : Option String
  receiver : Option String
deriving DecidableEq, Repr

/-- Function extractSenderReceiver of the source. -/
def extractSenderReceiver (body : String) (type : String) : SenderReceiver :=
  if type = "Incoming Money" then
    { sender := (scanFirst senderMatchAt body.toList).map (fun cap => String.mk (trimJS cap)),
      receiver := none }
  else if (["Payments to Code Holders", "Transfers to Mobile Numbers"] : List String).contains type then
    { sender := none,
      receiver := (scanFirst receiverMatchAt body.toList).map (fun cap => String.mk (trimJS cap)) }
  else
    { sender := none, receiver := none }

/-- One raw message, the attributes of the dollar object that the source
reads (any further transport attribute is never consulted). -/
structure RawSMS where
  address : Option String
  body : Option String
  type : Option String
  readable_date : Option String
  contact_name : Option String
deriving DecidableEq, Repr

/-- A JavaScript Date as the source builds one: from the text handed to
the constructor, or the clock value taken at ingestion. -/
inductive JsDate where
  | fromString : String → JsDate
  | atIngestion : JsDate
deriving DecidableEq, Repr

/-- The record handed to Transaction.create by the source. -/
structure TransactionRecord where
  sms_address : String
  sms_date : JsDate
  sms_type : String
  sms_body : String
  transaction_type : String
  amount : Int
  currency : String
  sender : Option String
  receiver : Option String
  balance : Option JsNum
  fee : JsNum
  transaction_id : Option String
  external_transaction_id : Option String
  message : String
  readable_date : Option String
  contact_name : Option String
  raw_json : RawSMS
deriving DecidableEq, Repr

/-- The body default of the source: a falsy body attribute (absent or the
empty string) is replaced by the literal placeholder. -/
def defaultBody (b : Option String) : String :=
  match b with
  | none => "No Body provided"
  | some s => if s = "" then "No Body provided" else s

/-- A falsy-or-string attribute used where the source writes a logical or
with a string default. -/
def jsOr (o : Option String) (d : String) : String :=
  match o with
  | none => d
  | some s => if s = "" then d else s

/-- A falsy-or-null attribute used where the source writes a logical or
with null. -/
def jsOrNull (o : Option String) : Option String :=
  match o with
  | none => none
  | some s => if s = "" then none else some s

/-- The record construction of the try block of `main` (lines 169-236 of
the source), a pure transform of one raw message. -/
def buildRecord (sms : RawSMS) : TransactionRecord :=
  let body := defaultBody sms.body
  let bl := body.toList
  let transaction_type := categorizeSMS (some body)
  let sr := extractSenderReceiver body transaction_type
  { sms_address := jsOr sms.address ""
    sms_date :=
      match extractDate (some body) with
      | some tok => JsDate.fromString tok
      | none =>
        match sms.readable_date with
        | some r => if r = "" then JsDate.atIngestion else JsDate.fromString r
        | none => JsDate.atIngestion
    sms_type := jsOr sms.type "unknown"
    sms_body := body
    transaction_type := transaction_type
    amount := ((extractAmount (some body)).getD 0 : Nat)
    currency := "RWF"
    sender := sr.sender
    receiver := sr.receiver
    balance :=
      match scanFirst balanceMatchAt bl with
      | some cap => some (jsParseInt (cap.filter (fun c => !(c == ','))))
      | none => none
    fee :=
      match scanFirst feeMatchAt bl with
      | some cap => jsParseInt (cap.filter (fun c => !(c == ',')))
      | none => JsNum.val 0
    transaction_id :=
      match (scanFirst transIdMatchAt bl).orElse (fun _ => scanFirst txIdMatchAt bl) with
      | some cap => some (String.mk cap)
      | none => none
    external_transaction_id :=
      match scanFirst extIdMatchAt bl with
      | some cap => some (String.mk cap)
      | none => none
    message := body
    readable_date := jsOrNull sms.readable_date
    contact_name := jsOrNull sms.contact_name
    raw_json := sms }

/-- Outcome of one Transaction.create call: a created row, a falsy
result, or a thrown error carrying its message. -/
inductive SaveOutcome where
  | created : SaveOutcome
  | falsy : SaveOutcome
  | threw : String → SaveOutcome
deriving DecidableEq, Repr

/-- The per-message closure of the batch map of `main`: build the record,
attempt the save, and catch every failure locally, turning it into a
logged pair and a false success flag. -/
def processOne (save : TransactionRecord → SaveOutcome) (m : RawSMS) :
    Bool × Option (RawSMS × String) :=
  match save (buildRecord m) with
  | .created => (true, none)
  | .falsy => (false, some (m, "Failed to create transaction"))
  | .threw e => (false, some (m, e))

/-- Counters and unprocessed-log sink of one run. -/
structure RunSummary where
  processed : Nat
  ignored : Nat
  logs : List (RawSMS × String)
deriving DecidableEq, Repr

/-- One batch of the orchestrator: all members processed, successes and
failures counted, failure logs collected. -/
def processBatch (save : TransactionRecord → SaveOutcome) (batch : List RawSMS) :
    RunSummary :=
  let results := batch.map (processOne save)
  { processed := results.countP (fun r => r.1)
    ignored := results.countP (fun r => !r.1)
    logs := results.filterMap (fun r => r.2) }

/-- Batch size constant of the source. -/
def BATCH_SIZE : Nat := 50

/-- The slice loop of `main`, written with a fuel argument so that it is
structurally recursive: the fuel is the list length, and dropping a batch
from a nonempty list always shortens it, so the zero-fuel nonempty case
is never reached. -/
def chunkGo : Nat → List α → List (List α)
  | _, [] => []
  | 0, _ :: _ => []
  | fuel + 1, x :: xs => ((x :: xs).take BATCH_SIZE) :: chunkGo fuel ((x :: xs).drop BATCH_SIZE)

/-- The slice loop of `main`: fixed-size batches in archive order. -/
def chunkList (l : List α) : List (List α) := chunkGo l.length l

/-- Sequential processing of the batches, accumulating the counters and
the log sink. -/
def runChunks (save : TransactionRecord → SaveOutcome) :
    List (List RawSMS) → RunSummary
  | [] => { processed := 0, ignored := 0, logs := [] }
  | b :: bs =>
    { processed := (processBatch save b).processed + (runChunks save bs).processed
      ignored := (processBatch save b).ignored + (runChunks save bs).ignored
      logs := (processBatch save b).logs ++ (runChunks save bs).logs }

/-- Function main of the source, over an already parsed archive and a
persistence oracle: the batch orchestrator (named mainRun here because a
plain def named main is reserved by Lean for program entry points). -/
def mainRun (save : TransactionRecord → SaveOutcome) (messages : List RawSMS) :
    RunSummary :=
  runChunks save (chunkList messages)

/-! Shared lemmas about the scanners and the batch loop. -/

theorem scanFirst_cons_none {α : Type} {m : List Char → Option α} {c : Char}
    {cs : List Char} (h : m (c :: cs) = none) :
    scanFirst m (c :: cs) = scanFirst m cs := by
  simp [scanFirst, h]

theorem scanFirst_cons_some {α : Type} {m : List Char → Option α} {c : Char}
    {cs : List Char} {r : α} (h : m (c :: cs) = some r) :
    scanFirst m (c :: cs) = some r := by
  simp [scanFirst, h]

theorem scanFirst_append_none {α : Type} {m : List Char → Option α}
    {xs : List Char} (ys : List Char)
    (h : ∀ t, t <:+ xs → t ≠ [] → m (t ++ ys) = none) :
    scanFirst m (xs ++ ys) = scanFirst m ys := by
  induction xs with
  | nil => simp
  | cons c cs ih =>
    have h0 : m ((c :: cs) ++ ys) = none := h (c :: cs) List.suffix_rfl (by simp)
    rw [List.cons_append] at h0
    rw [List.cons_append, scanFirst_cons_none h0]
    exact ih fun t ht hne => h t (ht.trans (List.suffix_cons c cs)) hne

theorem takeWhile_append_stop {α : Type} {p : α → Bool} {l₁ l₂ : List α}
    (h₁ : ∀ a ∈ l₁, p a = true) (h₂ : ∀ a, l₂.head? = some a → p a = false) :
    (l₁ ++ l₂).takeWhile p = l₁ := by
  rw [List.takeWhile_append_of_pos h₁]
  cases l₂ with
  | nil => simp
  | cons a t => simp [List.takeWhile_cons, h₂ a rfl]

theorem dropWhile_append_stop {α : Type} {p : α → Bool} {l₁ l₂ : List α}
    (h₁ : ∀ a ∈ l₁, p a = true) (h₂ : ∀ a, l₂.head? = some a → p a = false) :
    (l₁ ++ l₂).dropWhile p = l₂ := by
  rw [List.dropWhile_append_of_pos h₁]
  cases l₂ with
  | nil => simp
  | cons a t => simp [List.dropWhile_cons, h₂ a rfl]

theorem countP_not_add {α : Type} (l : List α) (p : α → Bool) :
    l.countP p + l.countP (fun a => !p a) = l.length := by
  induction l with
  | nil => simp
  | cons a t ih =>
    rw [List.countP_cons, List.countP_cons]
    cases h : p a <;> simp [h] <;> omega

theorem chunkGo_flatten {α : Type} (fuel : Nat) (l : List α)
    (h : l.length ≤ fuel) : (chunkGo fuel l).flatten = l := by
  induction fuel generalizing l with
  | zero =>
    cases l with
    | nil => simp [chunkGo]
    | cons x xs => simp at h
  | succ n ih =>
    cases l with
    | nil => simp [chunkGo]
    | cons x xs =>
      rw [chunkGo, List.flatten_cons, ih _ ?_, List.take_append_drop]
      have hlen : ((x :: xs).drop BATCH_SIZE).length = (xs.length + 1) - BATCH_SIZE := by
        simp
      rw [hlen]
      simp only [List.length_cons] at h
      have hbs : BATCH_SIZE = 50 := rfl
      omega

theorem chunkList_flatten {α : Type} (l : List α) : (chunkList l).flatten = l :=
  chunkGo_flatten l.length l le_rfl

theorem processBatch_counts (save : TransactionRecord → SaveOutcome)
    (batch : List RawSMS) :
    (processBatch save batch).processed + (processBatch save batch).ignored =
      batch.length := by
  unfold processBatch
  simpa using countP_not_add (batch.map (processOne save)) (fun r => r.1)

theorem processOne_snd_isSome (save : TransactionRecord → SaveOutcome)
    (m : RawSMS) : (processOne save m).2.isSome = !(processOne save m).1 := by
  unfold processOne
  cases save (buildRecord m) <;> rfl

theorem logs_length_aux (save : TransactionRecord → SaveOutcome)
    (l : List RawSMS) :
    (l.filterMap (fun m => (processOne save m).2)).length =
      l.countP (fun m => !(processOne save m).1) := by
  induction l with
  | nil => simp
  | cons m t ih =>
    rw [List.filterMap_cons, List.countP_cons]
    cases hs : save (buildRecord m) with
    | created =>
      have h1 : processOne save m = (true, none) := by simp [processOne, hs]
      simp [h1, ih]
    | falsy =>
      have h1 : processOne save m = (false, some (m, "Failed to create transaction")) := by
        simp [processOne, hs]
      simp [h1, ih]
    | threw e =>
      have h1 : processOne save m = (false, some (m, e)) := by simp [processOne, hs]
      simp [h1, ih]

theorem processBatch_logs_length (save : TransactionRecord → SaveOutcome)
    (batch : List RawSMS) :
    (processBatch save batch).logs.length = (processBatch save batch).ignored := by
  show ((batch.map (processOne save)).filterMap (fun r => r.2)).length =
    (batch.map (processOne save)).countP (fun r => !r.1)
  rw [List.filterMap_map, List.countP_map]
  exact logs_length_aux save batch

theorem runChunks_counts (save : TransactionRecord → SaveOutcome)
    (cs : List (List RawSMS)) :
    (runChunks save cs).processed + (runChunks save cs).ignored =
      cs.flatten.length := by
  induction cs with
  | nil => simp [runChunks]
  | cons b bs ih =>
    have hb := processBatch_counts save b
    simp only [runChunks, List.flatten_cons, List.length_append]
    omega

theorem runChunks_logs (save : TransactionRecord → SaveOutcome)
    (cs : List (List RawSMS)) :
    (runChunks save cs).logs =
      (cs.flatten.map (processOne save)).filterMap (fun r => r.2) := by
  induction cs with
  | nil => simp [runChunks]
  | cons b bs ih =>
    simp only [runChunks, List.flatten_cons, List.map_append,
      List.filterMap_append, ih, processBatch]

theorem runChunks_logs_length (save : TransactionRecord → SaveOutcome)
    (cs : List (List RawSMS)) :
    (runChunks save cs).logs.length = (runChunks save cs).ignored := by
  induction cs with
  | nil => simp [runChunks]
  | cons b bs ih =>
    have hb := processBatch_logs_length save b
    simp only [runChunks, List.length_append]
    omega

theorem jsParseInt_isNeg (l : List Char) : (jsParseInt l).isNeg = false := by
  cases l with
  | nil => rfl
  | cons a t =>
    simp only [jsParseInt, JsNum.isNeg]
    simp only [decide_eq_false_iff_not, Int.not_lt]
    exact Int.natCast_nonneg _

/-- The closed category enumeration of the specification. -/
def categoryEnum : List String :=
  ["Incoming Money", "Payments to Code Holders", "Transfers to Mobile Numbers",
   "Bank Deposits", "Airtime Bill Payments", "Cash Power Bill Payments",
   "Transactions Initiated by Third Parties", "Withdrawals from Agents",
   "Bank Transfers", "Internet and Voice Bundle Purchases", "Other", "Unknown"]

set_option maxHeartbeats 4000000 in
theorem categorizeSMS_mem (b : Option String) : categorizeSMS b ∈ categoryEnum := by
  rcases b with _ | s
  · exact List.Mem.tail _ (List.Mem.tail _ (List.Mem.tail _ (List.Mem.tail _ (List.Mem.tail _ (List.Mem.tail _ (List.Mem.tail _ (List.Mem.tail _ (List.Mem.tail _ (List.Mem.tail _ (List.Mem.tail _ (List.Mem.head _)))))))))))
  · rw [categorizeSMS, categoryEnum]
    split_ifs
    · exact List.Mem.tail _ (List.Mem.tail _ (List.Mem.tail _ (List.Mem.tail _ (List.Mem.tail _ (List.Mem.tail _ (List.Mem.tail _ (List.Mem.tail _ (List.Mem.tail _ (List.Mem.tail _ (List.Mem.tail _ (List.Mem.head _)))))))))))
    · exact List.Mem.head _
    · exact List.Mem.tail _ (List.Mem.head _)
    · exact List.Mem.tail _ (List.Mem.tail _ (List.Mem.head _))
    · exact List.Mem.tail _ (List.Mem.tail _ (List.Mem.tail _ (List.Mem.head _)))
    · exact List.Mem.tail _ (List.Mem.tail _ (List.Mem.tail _ (List.Mem.tail _ (List.Mem.head _))))
    · exact List.Mem.tail _ (List.Mem.tail _ (List.Mem.tail _ (List.Mem.tail _ (List.Mem.tail _ (List.Mem.head _)))))
    · exact List.Mem.tail _ (List.Mem.tail _ (List.Mem.tail _ (List.Mem.tail _ (List.Mem.tail _ (List.Mem.tail _ (List.Mem.head _))))))
    · exact List.Mem.tail _ (List.Mem.tail _ (List.Mem.tail _ (List.Mem.tail _ (List.Mem.tail _ (List.Mem.tail _ (List.Mem.tail _ (List.Mem.head _)))))))
    · exact List.Mem.tail _ (List.Mem.tail _ (List.Mem.tail _ (List.Mem.tail _ (List.Mem.tail _ (List.Mem.tail _ (List.Mem.tail _ (List.Mem.tail _ (List.Mem.head _))))))))
    · exact List.Mem.tail _ (List.Mem.tail _ (List.Mem.tail _ (List.Mem.tail _ (List.Mem.tail _ (List.Mem.tail _ (List.Mem.tail _ (List.Mem.tail _ (List.Mem.tail _ (List.Mem.head _)))))))))
    · exact List.Mem.tail _ (List.Mem.tail _ (List.Mem.tail _ (List.Mem.tail _ (List.Mem.tail _ (List.Mem.tail _ (List.Mem.tail _ (List.Mem.tail _ (List.Mem.tail _ (List.Mem.tail _ (List.Mem.head _))))))))))

/-- C1: every body containing the Incoming Money triggers (received and
from) together with the Bank Transfer trigger (External Transaction Id)
is classified Incoming Money, because the rules run in the fixed source
order and the first matching rule wins. -/
theorem categorize_priority_incoming_over_bank (b : String)
    (h1 : hasSub b.toList "received" = true)
    (h2 : hasSub b.toList "from" = true)
    (h3 : hasSub b.toList "External Transaction Id" = true) :
    categorizeSMS (some b) = "Incoming Money" := by
  have hne : ¬(b = "") := by
    intro he
    rw [he] at h1
    exact absurd h1 (by decide)
  have h1d : hasSub b.data "received" = true := h1
  have h2d : hasSub b.data "from" = true := h2
  unfold categorizeSMS
  simp [hne, h1d, h2d]

/-- C1 witness at a body carrying both triggers. -/
theorem categorize_priority_incoming_over_bank_witness :
    categorizeSMS (some "received 100 RWF from A (1). External Transaction Id: 77") =
      "Incoming Money" :=
  categorize_priority_incoming_over_bank _ (by decide) (by decide) (by decide)

/-- A raw message with no body attribute. -/
def smsNoBody : RawSMS := { address := none, body := none, type := none, readable_date := none, contact_name := none }

/-- A raw message with an empty body string. -/
def smsEmptyBody : RawSMS := { address := some "M-Money", body := some "", type := some "1", readable_date := none, contact_name := none }

/-- C2 counterexample: a message with no body builds a record whose
category is Other, not Unknown, because the body is first replaced by the
placeholder text and the placeholder matches no classification rule. -/
theorem noBody_category_counterexample :
    (buildRecord smsNoBody).transaction_type ≠ "Unknown" ∧
    (buildRecord smsNoBody).transaction_type = "Other" := by
  constructor
  · decide
  · decide

/-- C2 amended: for every message whose body attribute is absent or
empty, the built record has category Other (the placeholder body matches
no rule), amount zero, and all optional fields null. -/
theorem noBody_record_defaults (sms : RawSMS)
    (h : sms.body = none ∨ sms.body = some "") :
    (buildRecord sms).transaction_type = "Other" ∧
    (buildRecord sms).amount = 0 ∧
    (buildRecord sms).sender = none ∧
    (buildRecord sms).receiver = none ∧
    (buildRecord sms).balance = none ∧
    (buildRecord sms).transaction_id = none ∧
    (buildRecord sms).external_transaction_id = none := by
  have hb : defaultBody sms.body = "No Body provided" := by
    rcases h with h | h <;> simp [defaultBody, h]
  refine ⟨?_, ?_, ?_, ?_, ?_, ?_, ?_⟩ <;> simp only [buildRecord, hb] <;> decide

/-- C2 witness at a message with an empty body string. -/
theorem noBody_record_defaults_witness :
    (buildRecord smsEmptyBody).transaction_type = "Other" ∧
    (buildRecord smsEmptyBody).amount = 0 ∧
    (buildRecord smsEmptyBody).sender = none ∧
    (buildRecord smsEmptyBody).receiver = none ∧
    (buildRecord smsEmptyBody).balance = none ∧
    (buildRecord smsEmptyBody).transaction_id = none ∧
    (buildRecord smsEmptyBody).external_transaction_id = none :=
  noBody_record_defaults _ (Or.inr rfl)

/-- C6: the counterparty resolver populates at most one of sender and
receiver; the sender can be non-null only for Incoming Money, the
receiver only for the two transfer and payment categories, and every
other category leaves both null. -/
theorem sender_receiver_exclusive (body ty : String) :
    (ty ≠ "Incoming Money" → (extractSenderReceiver body ty).sender = none) ∧
    ((ty ≠ "Payments to Code Holders" ∧ ty ≠ "Transfers to Mobile Numbers") →
      (extractSenderReceiver body ty).receiver = none) ∧
    ((extractSenderReceiver body ty).sender = none ∨
      (extractSenderReceiver body ty).receiver = none) := by
  unfold extractSenderReceiver
  split_ifs with h1 h2
  · subst h1
    exact ⟨fun hc => absurd rfl hc, fun _ => rfl, Or.inr rfl⟩
  · have hmem : ty = "Payments to Code Holders" ∨ ty = "Transfers to Mobile Numbers" := by
      simpa using h2
    refine ⟨fun _ => rfl, fun hc => ?_, Or.inl rfl⟩
    rcases hmem with h | h
    · exact absurd h hc.1
    · exact absurd h hc.2
  · exact ⟨fun _ => rfl, fun _ => rfl, Or.inl rfl⟩

/-- C6 witness at a category outside the three populating ones. -/
theorem sender_receiver_exclusive_witness :
    (extractSenderReceiver "sent to Bob (1)" "Other").sender = none ∧
    (extractSenderReceiver "sent to Bob (1)" "Other").receiver = none :=
  ⟨(sender_receiver_exclusive "sent to Bob (1)" "Other").1 (by decide),
   (sender_receiver_exclusive "sent to Bob (1)" "Other").2.1 ⟨by decide, by decide⟩⟩

/-- C7: every built record carries exactly one category drawn from the
closed twelve-value enumeration, and the numeric fields amount, fee and
balance are never negative. -/
theorem record_enum_and_nonneg (sms : RawSMS) :
    (buildRecord sms).transaction_type ∈ categoryEnum ∧
    0 ≤ (buildRecord sms).amount ∧
    (buildRecord sms).fee.isNeg = false ∧
    Option.all (fun v => !v.isNeg) (buildRecord sms).balance = true := by
  refine ⟨?_, ?_, ?_, ?_⟩
  · show categorizeSMS (some (defaultBody sms.body)) ∈ categoryEnum
    exact categorizeSMS_mem _
  · show 0 ≤ (((extractAmount (some (defaultBody sms.body))).getD 0 : Nat) : Int)
    exact Int.natCast_nonneg _
  · show (match scanFirst feeMatchAt (defaultBody sms.body).toList with
      | some cap => jsParseInt (cap.filter (fun c => !(c == ',')))
      | none => JsNum.val 0).isNeg = false
    cases scanFirst feeMatchAt (defaultBody sms.body).toList with
    | none => rfl
    | some cap => exact jsParseInt_isNeg _
  · show Option.all (fun v => !v.isNeg)
      (match scanFirst balanceMatchAt (defaultBody sms.body).toList with
        | some cap => some (jsParseInt (cap.filter (fun c => !(c == ','))))
        | none => none) = true
    cases scanFirst balanceMatchAt (defaultBody sms.body).toList with
    | none => rfl
    | some cap => simp [Option.all, jsParseInt_isNeg]

/-- C3: for every archive and every behaviour of the persistence
collaborator, the final counters of a run satisfy processed plus ignored
equals the number of messages: each message increments exactly one
counter, however many messages fail. -/
theorem run_counters_partition (save : TransactionRecord → SaveOutcome)
    (messages : List RawSMS) :
    (mainRun save messages).processed + (mainRun save messages).ignored =
      messages.length := by
  unfold mainRun
  rw [runChunks_counts, chunkList_flatten]

/-- C8: every per-message failure is caught at the message boundary: the
run is a total function of the archive and the oracle, the unprocessed
log holds exactly the failing messages paired with their failure reasons,
its length equals the ignored counter, the two counters exhaust the
archive, and a thrown error or a falsy create result each produce the
logged pair and a false success flag for just that message. -/
theorem per_message_failure_isolated (save : TransactionRecord → SaveOutcome)
    (messages : List RawSMS) :
    (mainRun save messages).logs =
      messages.filterMap (fun m => (processOne save m).2) ∧
    (mainRun save messages).logs.length = (mainRun save messages).ignored ∧
    (mainRun save messages).processed + (mainRun save messages).ignored =
      messages.length ∧
    (∀ m e, save (buildRecord m) = SaveOutcome.threw e →
      processOne save m = (false, some (m, e))) ∧
    (∀ m, save (buildRecord m) = SaveOutcome.falsy →
      processOne save m = (false, some (m, "Failed to create transaction"))) := by
  refine ⟨?_, ?_, ?_, ?_, ?_⟩
  · unfold mainRun
    rw [runChunks_logs, chunkList_flatten, List.filterMap_map]
    rfl
  · unfold mainRun
    exact runChunks_logs_length save (chunkList messages)
  · unfold mainRun
    rw [runChunks_counts, chunkList_flatten]
  · intro m e hs
    simp [processOne, hs]
  · intro m hs
    simp [processOne, hs]

/-- C8 witness: a two-message archive whose first save throws. -/
theorem per_message_failure_isolated_witness :
    (mainRun (fun r => if r.raw_json = smsEmptyBody then SaveOutcome.threw "boom"
        else SaveOutcome.created) [smsEmptyBody, smsNoBody]).logs =
      [(smsEmptyBody, "boom")] ∧
    (mainRun (fun r => if r.raw_json = smsEmptyBody then SaveOutcome.threw "boom"
        else SaveOutcome.created) [smsEmptyBody, smsNoBody]).processed = 1 ∧
    (mainRun (fun r => if r.raw_json = smsEmptyBody then SaveOutcome.threw "boom"
        else SaveOutcome.created) [smsEmptyBody, smsNoBody]).ignored = 1 ∧
    processOne (fun r => if r.raw_json = smsEmptyBody then SaveOutcome.threw "boom"
        else SaveOutcome.created) smsEmptyBody = (false, some (smsEmptyBody, "boom")) := by
  refine ⟨?_, ?_, ?_, ?_⟩
  · rw [(per_message_failure_isolated _ [smsEmptyBody, smsNoBody]).1]
    decide
  · decide
  · decide
  · exact (per_message_failure_isolated (fun r =>
      if r.raw_json = smsEmptyBody then SaveOutcome.threw "boom"
      else SaveOutcome.created) [smsEmptyBody, smsNoBody]).2.2.2.1 smsEmptyBody "boom"
      (by decide)

/-- A raw message whose body carries a date token. -/
def smsDateToken : RawSMS := { address := none, body := some "done on 2024-05-10 16:30:51 end", type := none, readable_date := some "10 May 2024", contact_name := none }

/-- A raw message without a date token but with a readable date. -/
def smsReadableDate : RawSMS := { address := none, body := some "hello", type := none, readable_date := some "10 May 2024", contact_name := none }

/-- A raw message with neither a date token nor a readable date. -/
def smsNoDate : RawSMS := { address := none, body := some "hello", type := none, readable_date := none, contact_name := none }

/-- C5: the record timestamp is chosen by strict priority: a date-shaped
substring of the body if one exists, otherwise the readable date
attribute when it is present and non-empty, otherwise the ingestion
time. -/
theorem sms_date_priority (sms : RawSMS) :
    (∀ tok, extractDate (some (defaultBody sms.body)) = some tok →
      (buildRecord sms).sms_date = JsDate.fromString tok) ∧
    (extractDate (some (defaultBody sms.body)) = none →
      ∀ r, sms.readable_date = some r → ¬r = "" →
        (buildRecord sms).sms_date = JsDate.fromString r) ∧
    (extractDate (some (defaultBody sms.body)) = none →
      (sms.readable_date = none ∨ sms.readable_date = some "") →
        (buildRecord sms).sms_date = JsDate.atIngestion) := by
  refine ⟨?_, ?_, ?_⟩
  · intro tok h
    simp only [buildRecord, h]
  · intro h r hr hne
    simp only [buildRecord, h, hr]
    simp [hne]
  · intro h h2
    rcases h2 with h2 | h2 <;> simp only [buildRecord, h, h2]
    simp

/-- C5 witness exercising all three priority levels. -/
theorem sms_date_priority_witness :
    (buildRecord smsDateToken).sms_date = JsDate.fromString "2024-05-10 16:30:51" ∧
    (buildRecord smsReadableDate).sms_date = JsDate.fromString "10 May 2024" ∧
    (buildRecord smsNoDate).sms_date = JsDate.atIngestion :=
  ⟨(sms_date_priority smsDateToken).1 "2024-05-10 16:30:51" (by decide),
   (sms_date_priority smsReadableDate).2.1 (by decide) "10 May 2024" rfl (by decide),
   (sms_date_priority smsNoDate).2.2 (by decide) (Or.inl rfl)⟩

theorem skipColon_colon (t : List Char) : skipColon (':' :: t) = t := rfl

theorem skipColon_not_colon {c : Char} (t : List Char) (h : ¬c = ':') :
    skipColon (c :: t) = c :: t := by
  unfold skipColon
  split
  · next t' heq =>
    injection heq with h1 h2
    exact absurd h1 h
  · rfl

theorem digitComma_not_space {c : Char} (h : isDigitComma c = true) :
    isSpaceJS c = false := by
  by_contra hc
  rw [Bool.not_eq_false] at hc
  have hor : ((((c = ' ' ∨ c = '\t') ∨ c = '\n') ∨ c = '\x0d') ∨ c = '\x0b') ∨ c = '\x0c' := by
    simpa [isSpaceJS] using hc
  rcases hor with ((((h1 | h1) | h1) | h1) | h1) | h1 <;> (subst h1; exact absurd h (by decide))

theorem digit_digitComma {c : Char} (h : c.isDigit = true) : isDigitComma c = true := by
  simp [isDigitComma, h]

theorem digit_not_comma {c : Char} (h : c.isDigit = true) : (!(c == ',')) = true := by
  by_contra hc
  have : c = ',' := by simpa using hc
  subst this
  exact absurd h (by decide)

theorem filter_comma_of_digits {l : List Char} (h : ∀ x ∈ l, x.isDigit = true) :
    l.filter (fun c => !(c == ',')) = l :=
  List.filter_eq_self.mpr fun a ha => digit_not_comma (h a ha)

theorem feeMatchAt_was (c : Char) (d' q : List Char)
    (hall : ∀ x ∈ c :: d', isDigitComma x = true) :
    feeMatchAt ("Fee was ".toList ++ ((c :: d') ++ (' ' :: 'R' :: 'W' :: 'F' :: q))) =
      some (c :: d') := by
  have e1 : "Fee was ".toList ++ ((c :: d') ++ (' ' :: 'R' :: 'W' :: 'F' :: q)) =
      'F' :: 'e' :: 'e' :: ' ' :: 'w' :: 'a' :: 's' :: ' ' ::
        ((c :: d') ++ (' ' :: 'R' :: 'W' :: 'F' :: q)) := rfl
  have h1 : stripLit "Fee ".toList
      ('F' :: 'e' :: 'e' :: ' ' :: 'w' :: 'a' :: 's' :: ' ' ::
        ((c :: d') ++ (' ' :: 'R' :: 'W' :: 'F' :: q))) =
      some ('w' :: 'a' :: 's' :: ' ' :: ((c :: d') ++ (' ' :: 'R' :: 'W' :: 'F' :: q))) := rfl
  have h12 : (stripLit "was".toList
        ('w' :: 'a' :: 's' :: ' ' :: ((c :: d') ++ (' ' :: 'R' :: 'W' :: 'F' :: q)))).orElse
      (fun _ => stripLit "paid".toList
        ('w' :: 'a' :: 's' :: ' ' :: ((c :: d') ++ (' ' :: 'R' :: 'W' :: 'F' :: q)))) =
      some (' ' :: ((c :: d') ++ (' ' :: 'R' :: 'W' :: 'F' :: q))) := rfl
  have h3 : skipColon (' ' :: ((c :: d') ++ (' ' :: 'R' :: 'W' :: 'F' :: q))) =
      ' ' :: ((c :: d') ++ (' ' :: 'R' :: 'W' :: 'F' :: q)) :=
    skipColon_not_colon _ (by decide)
  have hspace : isSpaceJS c = false := digitComma_not_space (hall c (by simp))
  have hd1 : List.dropWhile isSpaceJS
      (' ' :: ((c :: d') ++ (' ' :: 'R' :: 'W' :: 'F' :: q))) =
      (c :: d') ++ (' ' :: 'R' :: 'W' :: 'F' :: q) := by
    rw [List.dropWhile_cons, if_pos (show isSpaceJS ' ' = true from rfl),
      List.cons_append, List.dropWhile_cons, if_neg (by simp [hspace])]
  have hTake : ((c :: d') ++ (' ' :: 'R' :: 'W' :: 'F' :: q)).takeWhile isDigitComma =
      c :: d' :=
    takeWhile_append_stop hall (by intro a ha; simp at ha; subst ha; rfl)
  have hDrop : ((c :: d') ++ (' ' :: 'R' :: 'W' :: 'F' :: q)).dropWhile isDigitComma =
      ' ' :: 'R' :: 'W' :: 'F' :: q :=
    dropWhile_append_stop hall (by intro a ha; simp at ha; subst ha; rfl)
  have hpre : " RWF".toList.isPrefixOf (' ' :: 'R' :: 'W' :: 'F' :: q) = true := by
    cases q <;> rfl
  rw [e1]
  simp only [feeMatchAt, h1, h12, h3, hd1, hTake, hDrop, hpre, List.isEmpty_cons,
    Bool.false_eq_true, if_false, if_true]

theorem feeMatchAt_paid (c : Char) (d' q : List Char)
    (hall : ∀ x ∈ c :: d', isDigitComma x = true) :
    feeMatchAt ("Fee paid: ".toList ++ ((c :: d') ++ (' ' :: 'R' :: 'W' :: 'F' :: q))) =
      some (c :: d') := by
  have e1 : "Fee paid: ".toList ++ ((c :: d') ++ (' ' :: 'R' :: 'W' :: 'F' :: q)) =
      'F' :: 'e' :: 'e' :: ' ' :: 'p' :: 'a' :: 'i' :: 'd' :: ':' :: ' ' ::
        ((c :: d') ++ (' ' :: 'R' :: 'W' :: 'F' :: q)) := rfl
  have h1 : stripLit "Fee ".toList
      ('F' :: 'e' :: 'e' :: ' ' :: 'p' :: 'a' :: 'i' :: 'd' :: ':' :: ' ' ::
        ((c :: d') ++ (' ' :: 'R' :: 'W' :: 'F' :: q))) =
      some ('p' :: 'a' :: 'i' :: 'd' :: ':' :: ' ' ::
        ((c :: d') ++ (' ' :: 'R' :: 'W' :: 'F' :: q))) := rfl
  have h12 : (stripLit "was".toList
        ('p' :: 'a' :: 'i' :: 'd' :: ':' :: ' ' ::
          ((c :: d') ++ (' ' :: 'R' :: 'W' :: 'F' :: q)))).orElse
      (fun _ => stripLit "paid".toList
        ('p' :: 'a' :: 'i' :: 'd' :: ':' :: ' ' ::
          ((c :: d') ++ (' ' :: 'R' :: 'W' :: 'F' :: q)))) =
      some (':' :: ' ' :: ((c :: d') ++ (' ' :: 'R' :: 'W' :: 'F' :: q))) := rfl
  have h3 : skipColon (':' :: ' ' :: ((c :: d') ++ (' ' :: 'R' :: 'W' :: 'F' :: q))) =
      ' ' :: ((c :: d') ++ (' ' :: 'R' :: 'W' :: 'F' :: q)) := rfl
  have hspace : isSpaceJS c = false := digitComma_not_space (hall c (by simp))
  have hd1 : List.dropWhile isSpaceJS
      (' ' :: ((c :: d') ++ (' ' :: 'R' :: 'W' :: 'F' :: q))) =
      (c :: d') ++ (' ' :: 'R' :: 'W' :: 'F' :: q) := by
    rw [List.dropWhile_cons, if_pos (show isSpaceJS ' ' = true from rfl),
      List.cons_append, List.dropWhile_cons, if_neg (by simp [hspace])]
  have hTake : ((c :: d') ++ (' ' :: 'R' :: 'W' :: 'F' :: q)).takeWhile isDigitComma =
      c :: d' :=
    takeWhile_append_stop hall (by intro a ha; simp at ha; subst ha; rfl)
  have hDrop : ((c :: d') ++ (' ' :: 'R' :: 'W' :: 'F' :: q)).dropWhile isDigitComma =
      ' ' :: 'R' :: 'W' :: 'F' :: q :=
    dropWhile_append_stop hall (by intro a ha; simp at ha; subst ha; rfl)
  have hpre : " RWF".toList.isPrefixOf (' ' :: 'R' :: 'W' :: 'F' :: q) = true := by
    cases q <;> rfl
  rw [e1]
  simp only [feeMatchAt, h1, h12, h3, hd1, hTake, hDrop, hpre, List.isEmpty_cons,
    Bool.false_eq_true, if_false, if_true]

theorem defaultBody_mk_cons (c : Char) (l : List Char) :
    defaultBody (some (String.mk (c :: l))) = String.mk (c :: l) := by
  have hne : ¬(String.mk (c :: l) = "") := by
    intro he
    have hd := String.ext_iff.mp he
    exact absurd hd (by simp)
  simp [defaultBody, hne]

/-- A raw message whose fee label appears in upper case. -/
def smsFeeUpper : RawSMS := { address := none, body := some "Fee WAS 100 RWF", type := none, readable_date := none, contact_name := none }

/-- C4 counterexample: the spec-modelled case-insensitive fee extractor
finds the token of the body Fee WAS 100 RWF, but the source pattern has
no i flag, finds nothing, and the built record keeps fee zero. -/
theorem fee_case_sensitivity_counterexample :
    scanFirst feeMatchCIAt "Fee WAS 100 RWF".toList = some ['1', '0', '0'] ∧
    scanFirst feeMatchAt "Fee WAS 100 RWF".toList = none ∧
    (buildRecord smsFeeUpper).fee = JsNum.val 0 := by
  refine ⟨by decide, by decide, by decide⟩

/-- C4 amended: fee extraction matches the labels Fee was or Fee paid
case-sensitively, followed by an optional colon, optional whitespace, and
a token of digits and separators ending in a space and the currency
marker; the record fee is the comma-stripped parse of the capture, and
when no match exists anywhere in the body the fee is zero. -/
theorem fee_extraction_case_sensitive :
    (∀ (c : Char) (d' q : List Char), (∀ x ∈ c :: d', isDigitComma x = true) →
      (buildRecord { address := none, body := some (String.mk ("Fee was ".toList ++ ((c :: d') ++ (' ' :: 'R' :: 'W' :: 'F' :: q)))), type := none, readable_date := none, contact_name := none }).fee =
        jsParseInt ((c :: d').filter (fun ch => !(ch == ',')))) ∧
    (∀ (c : Char) (d' q : List Char), (∀ x ∈ c :: d', isDigitComma x = true) →
      (buildRecord { address := none, body := some (String.mk ("Fee paid: ".toList ++ ((c :: d') ++ (' ' :: 'R' :: 'W' :: 'F' :: q)))), type := none, readable_date := none, contact_name := none }).fee =
        jsParseInt ((c :: d').filter (fun ch => !(ch == ',')))) ∧
    (∀ sms : RawSMS, scanFirst feeMatchAt (defaultBody sms.body).toList = none →
      (buildRecord sms).fee = JsNum.val 0) := by
  refine ⟨?_, ?_, ?_⟩
  · intro c d' q hall
    have e1 : "Fee was ".toList ++ ((c :: d') ++ (' ' :: 'R' :: 'W' :: 'F' :: q)) =
        'F' :: 'e' :: 'e' :: ' ' :: 'w' :: 'a' :: 's' :: ' ' ::
          ((c :: d') ++ (' ' :: 'R' :: 'W' :: 'F' :: q)) := rfl
    have hm := feeMatchAt_was c d' q hall
    rw [e1] at hm
    have hscan : scanFirst feeMatchAt
        ('F' :: 'e' :: 'e' :: ' ' :: 'w' :: 'a' :: 's' :: ' ' ::
          ((c :: d') ++ (' ' :: 'R' :: 'W' :: 'F' :: q))) = some (c :: d') :=
      scanFirst_cons_some hm
    rw [e1]
    simp only [buildRecord, defaultBody_mk_cons, String.toList, hscan]
  · intro c d' q hall
    have e1 : "Fee paid: ".toList ++ ((c :: d') ++ (' ' :: 'R' :: 'W' :: 'F' :: q)) =
        'F' :: 'e' :: 'e' :: ' ' :: 'p' :: 'a' :: 'i' :: 'd' :: ':' :: ' ' ::
          ((c :: d') ++ (' ' :: 'R' :: 'W' :: 'F' :: q)) := rfl
    have hm := feeMatchAt_paid c d' q hall
    rw [e1] at hm
    have hscan : scanFirst feeMatchAt
        ('F' :: 'e' :: 'e' :: ' ' :: 'p' :: 'a' :: 'i' :: 'd' :: ':' :: ' ' ::
          ((c :: d') ++ (' ' :: 'R' :: 'W' :: 'F' :: q))) = some (c :: d') :=
      scanFirst_cons_some hm
    rw [e1]
    simp only [buildRecord, defaultBody_mk_cons, String.toList, hscan]
  · intro sms h
    simp only [buildRecord, h]

/-- C4 witness: a thousands-separated fee token for both labels. -/
theorem fee_extraction_case_sensitive_witness :
    (buildRecord { address := none, body := some (String.mk ("Fee was ".toList ++ (('2' :: ',' :: '0' :: '0' :: '0' :: []) ++ (' ' :: 'R' :: 'W' :: 'F' :: [])))), type := none, readable_date := none, contact_name := none }).fee =
      jsParseInt (('2' :: ',' :: '0' :: '0' :: '0' :: []).filter (fun ch => !(ch == ','))) ∧
    (buildRecord smsNoDate).fee = JsNum.val 0 :=
  ⟨fee_extraction_case_sensitive.1 '2' (',' :: '0' :: '0' :: '0' :: []) [] (by decide),
   fee_extraction_case_sensitive.2.2 smsNoDate (by decide)⟩

theorem amountMatchAt_nondigit_head {a : Char} (l : List Char)
    (h : a.isDigit = false) : amountMatchAt (a :: l) = none := by
  have hc : ¬(a.isDigit = true) := by simp [h]
  unfold amountMatchAt
  rw [List.takeWhile_cons, if_neg hc]
  rfl

theorem amount_scan_skip (p rest : List Char) (hp : ∀ x ∈ p, x.isDigit = false) :
    scanFirst amountMatchAt (p ++ rest) = scanFirst amountMatchAt rest :=
  scanFirst_append_none rest (by
    intro t ht hne
    cases t with
    | nil => exact absurd rfl hne
    | cons a t' =>
      have ha : a ∈ p := ht.subset (by simp)
      rw [List.cons_append]
      exact amountMatchAt_nondigit_head _ (hp a ha))

theorem amountMatchAt_digits (c : Char) (d' q : List Char)
    (hall : ∀ x ∈ c :: d', x.isDigit = true) :
    amountMatchAt ((c :: d') ++ (' ' :: 'R' :: 'W' :: 'F' :: q)) =
      some (digitsToNat (c :: d')) := by
  have hTake : ((c :: d') ++ (' ' :: 'R' :: 'W' :: 'F' :: q)).takeWhile Char.isDigit =
      c :: d' :=
    takeWhile_append_stop hall (by intro a ha; simp at ha; subst ha; rfl)
  have hDrop : ((c :: d') ++ (' ' :: 'R' :: 'W' :: 'F' :: q)).dropWhile Char.isDigit =
      ' ' :: 'R' :: 'W' :: 'F' :: q :=
    dropWhile_append_stop hall (by intro a ha; simp at ha; subst ha; rfl)
  have hsp : List.dropWhile isSpaceJS (' ' :: 'R' :: 'W' :: 'F' :: q) =
      'R' :: 'W' :: 'F' :: q := by
    rw [List.dropWhile_cons, if_pos (show isSpaceJS ' ' = true from rfl),
      List.dropWhile_cons, if_neg (by decide)]
  have hpre : "RWF".toList.isPrefixOf ('R' :: 'W' :: 'F' :: q) = true := by
    cases q <;> rfl
  unfold amountMatchAt
  simp only [hTake, hDrop, hsp, hpre, List.isEmpty_cons, Bool.false_eq_true,
    if_false, if_true]

theorem defaultBody_mk_ne_nil {l : List Char} (h : ¬l = []) :
    defaultBody (some (String.mk l)) = String.mk l := by
  have hne : ¬(String.mk l = "") := fun he => h (String.ext_iff.mp he)
  simp [defaultBody, hne]

/-- C10: the amount extractor returns the first comma-stripped digit run
followed by optional whitespace and the currency marker, wherever it
occurs in the body: for every digit-free prefix (for example a fee or
balance label), the record amount is the value of that earliest token,
whatever follows it. -/
theorem amount_first_currency_token (c : Char) (p d' q : List Char)
    (hp : ∀ x ∈ p, x.isDigit = false)
    (hall : ∀ x ∈ c :: d', x.isDigit = true) :
    extractAmount (some (String.mk (p ++ ((c :: d') ++ (' ' :: 'R' :: 'W' :: 'F' :: q))))) =
      some (digitsToNat (c :: d')) ∧
    (buildRecord { address := none, body := some (String.mk (p ++ ((c :: d') ++ (' ' :: 'R' :: 'W' :: 'F' :: q)))), type := none, readable_date := none, contact_name := none }).amount =
      (digitsToNat (c :: d') : Int) := by
  have hnil : ¬(p ++ ((c :: d') ++ (' ' :: 'R' :: 'W' :: 'F' :: q))) = [] := by simp
  have hne : ¬(String.mk (p ++ ((c :: d') ++ (' ' :: 'R' :: 'W' :: 'F' :: q))) = "") :=
    fun he => hnil (String.ext_iff.mp he)
  have hfilter : (p ++ ((c :: d') ++ (' ' :: 'R' :: 'W' :: 'F' :: q))).filter
      (fun ch => !(ch == ',')) =
      p.filter (fun ch => !(ch == ',')) ++
        ((c :: d') ++ (' ' :: 'R' :: 'W' :: 'F' :: (q.filter (fun ch => !(ch == ','))))) := by
    rw [List.filter_append, List.filter_append]
    rw [filter_comma_of_digits hall]
    rw [List.filter_cons_of_pos (by decide), List.filter_cons_of_pos (by decide),
      List.filter_cons_of_pos (by decide), List.filter_cons_of_pos (by decide)]
  have hpf : ∀ x ∈ p.filter (fun ch => !(ch == ',')), x.isDigit = false := by
    intro x hx
    exact hp x (List.mem_filter.mp hx).1
  have hscan : scanFirst amountMatchAt
      (p.filter (fun ch => !(ch == ',')) ++
        ((c :: d') ++ (' ' :: 'R' :: 'W' :: 'F' :: (q.filter (fun ch => !(ch == ',')))))) =
      some (digitsToNat (c :: d')) := by
    rw [amount_scan_skip _ _ hpf]
    have hm := amountMatchAt_digits c d' (q.filter (fun ch => !(ch == ','))) hall
    rw [List.cons_append] at hm
    rw [List.cons_append]
    exact scanFirst_cons_some hm
  have hextract : extractAmount
      (some (String.mk (p ++ ((c :: d') ++ (' ' :: 'R' :: 'W' :: 'F' :: q))))) =
      some (digitsToNat (c :: d')) := by
    show (if String.mk (p ++ ((c :: d') ++ (' ' :: 'R' :: 'W' :: 'F' :: q))) = "" then none
      else scanFirst amountMatchAt
        ((String.mk (p ++ ((c :: d') ++ (' ' :: 'R' :: 'W' :: 'F' :: q)))).toList.filter
          (fun ch => !(ch == ',')))) = some (digitsToNat (c :: d'))
    rw [if_neg hne]
    show scanFirst amountMatchAt
      ((p ++ ((c :: d') ++ (' ' :: 'R' :: 'W' :: 'F' :: q))).filter
        (fun ch => !(ch == ','))) = some (digitsToNat (c :: d'))
    rw [hfilter, hscan]
  refine ⟨hextract, ?_⟩
  simp only [buildRecord, defaultBody_mk_ne_nil hnil, hextract, Option.getD_some]

/-- C10 witness: a fee token with the currency marker precedes the
principal amount, and the amount field takes the fee value. -/
theorem amount_first_currency_token_witness :
    extractAmount (some (String.mk ("Fee was ".toList ++ (('1' :: '0' :: '0' :: []) ++ (' ' :: 'R' :: 'W' :: 'F' :: ", you received 2,000 RWF".toList))))) =
      some (digitsToNat ('1' :: '0' :: '0' :: [])) ∧
    (buildRecord { address := none, body := some (String.mk ("Fee was ".toList ++ (('1' :: '0' :: '0' :: []) ++ (' ' :: 'R' :: 'W' :: 'F' :: ", you received 2,000 RWF".toList)))), type := none, readable_date := none, contact_name := none }).amount =
      (digitsToNat ('1' :: '0' :: '0' :: []) : Int) :=
  amount_first_currency_token '1' "Fee was ".toList ('0' :: '0' :: [])
    ", you received 2,000 RWF".toList (by decide) (by decide)


theorem ciPrefixOf_append_right {lit t rest : List Char}
    (h : ciPrefixOf lit (t ++ rest) = true) :
    ciPrefixOf (lit.drop t.length) rest = true := by
  induction t generalizing lit with
  | nil => simpa using h
  | cons a t' ih =>
    cases lit with
    | nil => cases rest <;> rfl
    | cons x lit' =>
      rw [List.cons_append] at h
      simp only [ciPrefixOf, Bool.and_eq_true] at h
      rw [List.length_cons, List.drop_succ_cons]
      exact ih h.2

theorem ciPrefixOf_of_append {lit t rest : List Char} (hlen : lit.length ≤ t.length)
    (h : ciPrefixOf lit (t ++ rest) = true) : ciPrefixOf lit t = true := by
  induction lit generalizing t with
  | nil => cases t <;> rfl
  | cons x lit' ih =>
    cases t with
    | nil => simp at hlen
    | cons a t' =>
      rw [List.cons_append] at h
      simp only [ciPrefixOf, Bool.and_eq_true] at h ⊢
      refine ⟨h.1, ih ?_ h.2⟩
      simpa using hlen

theorem ciPrefixOf_eq_isPrefixOf_map (lit l : List Char) :
    ciPrefixOf lit l = lit.isPrefixOf (l.map lowerCh) := by
  induction lit generalizing l with
  | nil => cases l <;> rfl
  | cons x lit' ih =>
    cases l with
    | nil => rfl
    | cons b bs =>
      show ((x == lowerCh b) && ciPrefixOf lit' bs) =
        ((x == lowerCh b) && lit'.isPrefixOf (bs.map lowerCh))
      rw [ih]

theorem containsSub_of_suffix {lit t L : List Char} (hsuf : t <:+ L)
    (h : lit.isPrefixOf t = true) : containsSub lit L = true := by
  obtain ⟨u, rfl⟩ := hsuf
  induction u with
  | nil =>
    rw [List.nil_append]
    cases t with
    | nil => simpa [containsSub] using h
    | cons a t' => simp [containsSub, h]
  | cons a u' ih =>
    rw [List.cons_append]
    simp [containsSub, ih]

theorem ciPrefixOf_cons_true {lit : List Char} {b : Char} {bs : List Char}
    (h : ciPrefixOf lit (b :: bs) = true) :
    lit = [] ∨ ∃ lt, lit = lowerCh b :: lt := by
  cases lit with
  | nil => exact Or.inl rfl
  | cons x lt =>
    refine Or.inr ⟨lt, ?_⟩
    simp only [ciPrefixOf, Bool.and_eq_true, beq_iff_eq] at h
    rw [h.1]

theorem transIdMatchAt_none_of_no_ciPrefix {l : List Char}
    (h : ciPrefixOf "transaction id".toList l = false) : transIdMatchAt l = none := by
  have hstrip : stripLitCI "transaction id".toList l = none := by
    unfold stripLitCI
    rw [if_neg (show ¬(ciPrefixOf "transaction id".toList l = true) by
      intro hc
      rw [hc] at h
      exact Bool.noConfusion h)]
  simp only [transIdMatchAt, hstrip]

theorem space_not_colon {a : Char} (h : isSpaceJS a = true) : ¬a = ':' := by
  intro he
  subst he
  exact absurd h (by decide)

theorem digit_not_colon {a : Char} (h : a.isDigit = true) : ¬a = ':' := by
  intro he
  subst he
  exact absurd h (by decide)

theorem skipColon_no_colon_head {l : List Char}
    (h : ∀ a, l.head? = some a → ¬a = ':') : skipColon l = l := by
  cases l with
  | nil => rfl
  | cons a t => exact skipColon_not_colon t (h a rfl)

theorem transId_scan_skip_prefix (p r2 : List Char)
    (hp : hasSubCI p "transaction id" = false) :
    scanFirst transIdMatchAt (p ++ ('E' :: r2)) = scanFirst transIdMatchAt ('E' :: r2) := by
  apply scanFirst_append_none
  intro t ht hne
  apply transIdMatchAt_none_of_no_ciPrefix
  by_contra hcp
  rw [Bool.not_eq_false] at hcp
  rcases Nat.lt_or_ge t.length 14 with hlt | hge
  · have h2 := ciPrefixOf_append_right hcp
    rcases ciPrefixOf_cons_true h2 with hnil | ⟨lt', hlt'⟩
    · have hle : ("transaction id".toList).length ≤ t.length :=
        List.drop_eq_nil_iff_le.mp hnil
      rw [show ("transaction id".toList).length = 14 from rfl] at hle
      omega
    · have hh : ("transaction id".toList.drop t.length).head? = some 'e' := by
        rw [hlt']
        rfl
      have hno : ∀ k, k < 14 → ¬(("transaction id".toList.drop k).head? = some 'e') := by
        decide
      exact hno t.length hlt hh
  · have hpt : ciPrefixOf "transaction id".toList t = true :=
      ciPrefixOf_of_append
        (by rw [show ("transaction id".toList).length = 14 from rfl]; omega) hcp
    rw [ciPrefixOf_eq_isPrefixOf_map] at hpt
    have hocc : containsSub "transaction id".toList (p.map lowerCh) = true :=
      containsSub_of_suffix (List.IsSuffix.map lowerCh ht) hpt
    unfold hasSubCI at hp
    rw [hocc] at hp
    exact Bool.noConfusion hp

theorem transIdMatchAt_label (useColon : Bool) (w : List Char) (c : Char)
    (d' s : List Char)
    (hw : ∀ x ∈ w, isSpaceJS x = true)
    (hall : ∀ x ∈ c :: d', x.isDigit = true)
    (hs : ∀ a, s.head? = some a → a.isDigit = false) :
    transIdMatchAt ("Transaction Id".toList ++
      ((if useColon then [':'] else []) ++ (w ++ ((c :: d') ++ s)))) =
      some (c :: d') := by
  have hstrip : stripLitCI "transaction id".toList
      ("Transaction Id".toList ++
        ((if useColon then [':'] else []) ++ (w ++ ((c :: d') ++ s)))) =
      some ((if useColon then [':'] else []) ++ (w ++ ((c :: d') ++ s))) := by
    cases useColon <;> rfl
  have hskip : skipColon ((if useColon then [':'] else []) ++ (w ++ ((c :: d') ++ s))) =
      w ++ ((c :: d') ++ s) := by
    cases useColon with
    | true => rfl
    | false =>
      show skipColon ([] ++ (w ++ ((c :: d') ++ s))) = w ++ ((c :: d') ++ s)
      rw [List.nil_append]
      apply skipColon_no_colon_head
      intro a ha
      cases w with
      | nil =>
        rw [List.nil_append] at ha
        have h0 : ((c :: d') ++ s).head? = some c := rfl
        rw [h0] at ha
        rw [← Option.some.inj ha]
        exact digit_not_colon (hall c (by simp))
      | cons b w' =>
        have h0 : (((b :: w') ++ ((c :: d') ++ s))).head? = some b := rfl
        rw [h0] at ha
        rw [← Option.some.inj ha]
        exact space_not_colon (hw b (by simp))
  have hspace : isSpaceJS c = false :=
    digitComma_not_space (digit_digitComma (hall c (by simp)))
  have hdw : List.dropWhile isSpaceJS (w ++ ((c :: d') ++ s)) = (c :: d') ++ s :=
    dropWhile_append_stop hw (by
      intro a ha
      have h0 : ((c :: d') ++ s).head? = some c := rfl
      rw [h0] at ha
      rw [← Option.some.inj ha]
      exact hspace)
  have hTake : ((c :: d') ++ s).takeWhile Char.isDigit = c :: d' :=
    takeWhile_append_stop hall hs
  simp only [transIdMatchAt, hstrip, hskip, hdw, hTake, List.isEmpty_cons,
    Bool.false_eq_true, if_false]

theorem transId_scan_external (p w : List Char) (useColon : Bool) (c : Char)
    (d' s : List Char)
    (hpTid : hasSubCI p "transaction id" = false)
    (hw : ∀ x ∈ w, isSpaceJS x = true)
    (hall : ∀ x ∈ c :: d', x.isDigit = true)
    (hs : ∀ a, s.head? = some a → a.isDigit = false) :
    scanFirst transIdMatchAt (p ++ ("External Transaction Id".toList ++
      ((if useColon then [':'] else []) ++ (w ++ ((c :: d') ++ s))))) =
      some (c :: d') := by
  have e0 : "External Transaction Id".toList ++
      ((if useColon then [':'] else []) ++ (w ++ ((c :: d') ++ s))) =
      'E' :: 'x' :: 't' :: 'e' :: 'r' :: 'n' :: 'a' :: 'l' :: ' ' :: ("Transaction Id".toList ++ ((if useColon then [':'] else []) ++ (w ++ ((c :: d') ++ s)))) := rfl
  rw [e0, transId_scan_skip_prefix p _ hpTid]
  have hn0 : transIdMatchAt ('E' :: 'x' :: 't' :: 'e' :: 'r' :: 'n' :: 'a' :: 'l' :: ' ' :: ("Transaction Id".toList ++ ((if useColon then [':'] else []) ++ (w ++ ((c :: d') ++ s))))) = none := rfl
  have hn1 : transIdMatchAt ('x' :: 't' :: 'e' :: 'r' :: 'n' :: 'a' :: 'l' :: ' ' :: ("Transaction Id".toList ++ ((if useColon then [':'] else []) ++ (w ++ ((c :: d') ++ s))))) = none := rfl
  have hn2 : transIdMatchAt ('t' :: 'e' :: 'r' :: 'n' :: 'a' :: 'l' :: ' ' :: ("Transaction Id".toList ++ ((if useColon then [':'] else []) ++ (w ++ ((c :: d') ++ s))))) = none := rfl
  have hn3 : transIdMatchAt ('e' :: 'r' :: 'n' :: 'a' :: 'l' :: ' ' :: ("Transaction Id".toList ++ ((if useColon then [':'] else []) ++ (w ++ ((c :: d') ++ s))))) = none := rfl
  have hn4 : transIdMatchAt ('r' :: 'n' :: 'a' :: 'l' :: ' ' :: ("Transaction Id".toList ++ ((if useColon then [':'] else []) ++ (w ++ ((c :: d') ++ s))))) = none := rfl
  have hn5 : transIdMatchAt ('n' :: 'a' :: 'l' :: ' ' :: ("Transaction Id".toList ++ ((if useColon then [':'] else []) ++ (w ++ ((c :: d') ++ s))))) = none := rfl
  have hn6 : transIdMatchAt ('a' :: 'l' :: ' ' :: ("Transaction Id".toList ++ ((if useColon then [':'] else []) ++ (w ++ ((c :: d') ++ s))))) = none := rfl
  have hn7 : transIdMatchAt ('l' :: ' ' :: ("Transaction Id".toList ++ ((if useColon then [':'] else []) ++ (w ++ ((c :: d') ++ s))))) = none := rfl
  have hn8 : transIdMatchAt (' ' :: ("Transaction Id".toList ++ ((if useColon then [':'] else []) ++ (w ++ ((c :: d') ++ s))))) = none := rfl
  have e9 : ("Transaction Id".toList ++ ((if useColon then [':'] else []) ++ (w ++ ((c :: d') ++ s))) : List Char) =
      'T' :: 'r' :: 'a' :: 'n' :: 's' :: 'a' :: 'c' :: 't' :: 'i' :: 'o' :: 'n' :: ' ' :: 'I' :: 'd' :: ((if useColon then [':'] else []) ++ (w ++ ((c :: d') ++ s))) := rfl
  have hm := transIdMatchAt_label useColon w c d' s hw hall hs
  rw [e9] at hm
  rw [scanFirst_cons_none hn0, scanFirst_cons_none hn1, scanFirst_cons_none hn2, scanFirst_cons_none hn3, scanFirst_cons_none hn4, scanFirst_cons_none hn5, scanFirst_cons_none hn6, scanFirst_cons_none hn7, scanFirst_cons_none hn8, e9]
  exact scanFirst_cons_some hm

/-- C9: for every body that contains the label External Transaction Id
followed by an optional colon, whitespace, and a run of digits, and whose
preceding text contains no earlier Transaction Id or TxId label
(case-insensitively), the built record populates transactionId with those
digits, not null, because the case-insensitive transaction-id pattern
matches the Transaction Id substring inside the External Transaction Id
label. -/
theorem transaction_id_inside_external_label (p w : List Char) (useColon : Bool)
    (c : Char) (d' s : List Char)
    (hpTid : hasSubCI p "transaction id" = false)
    (hpTx : hasSubCI p "txid" = false)
    (hw : ∀ x ∈ w, isSpaceJS x = true)
    (hall : ∀ x ∈ c :: d', x.isDigit = true)
    (hs : ∀ a, s.head? = some a → a.isDigit = false) :
    scanFirst transIdMatchAt (p ++ ("External Transaction Id".toList ++ ((if useColon then [':'] else []) ++ (w ++ ((c :: d') ++ s))))) = some (c :: d') ∧
    (buildRecord { address := none, body := some (String.mk (p ++ ("External Transaction Id".toList ++ ((if useColon then [':'] else []) ++ (w ++ ((c :: d') ++ s)))))), type := none, readable_date := none, contact_name := none }).transaction_id = some (String.mk (c :: d')) := by
  have hscan := transId_scan_external p w useColon c d' s hpTid hw hall hs
  refine ⟨hscan, ?_⟩
  have e0 : "External Transaction Id".toList ++ ((if useColon then [':'] else []) ++ (w ++ ((c :: d') ++ s))) =
      'E' :: 'x' :: 't' :: 'e' :: 'r' :: 'n' :: 'a' :: 'l' :: ' ' :: ("Transaction Id".toList ++ ((if useColon then [':'] else []) ++ (w ++ ((c :: d') ++ s)))) := rfl
  have hnil : ¬(p ++ ("External Transaction Id".toList ++ ((if useColon then [':'] else []) ++ (w ++ ((c :: d') ++ s))))) = [] := by
    rw [e0]
    simp
  have horelse : (some (c :: d')).orElse
      (fun _ => scanFirst txIdMatchAt (p ++ ("External Transaction Id".toList ++ ((if useColon then [':'] else []) ++ (w ++ ((c :: d') ++ s)))))) = some (c :: d') := rfl
  show (match (scanFirst transIdMatchAt
        (defaultBody (some (String.mk (p ++ ("External Transaction Id".toList ++ ((if useColon then [':'] else []) ++ (w ++ ((c :: d') ++ s)))))))).toList).orElse
      (fun _ => scanFirst txIdMatchAt
        (defaultBody (some (String.mk (p ++ ("External Transaction Id".toList ++ ((if useColon then [':'] else []) ++ (w ++ ((c :: d') ++ s)))))))).toList) with
    | some cap => some (String.mk cap)
    | none => none) = some (String.mk (c :: d'))
  rw [defaultBody_mk_ne_nil hnil]
  have hdata : (String.mk (p ++ ("External Transaction Id".toList ++ ((if useColon then [':'] else []) ++ (w ++ ((c :: d') ++ s)))))).toList = p ++ ("External Transaction Id".toList ++ ((if useColon then [':'] else []) ++ (w ++ ((c :: d') ++ s)))) := rfl
  rw [hdata, hscan, horelse]

/-- C9 witness: a body with ordinary preceding text, the label, a colon,
a space, the digits 713 and a trailing sentence. -/
theorem transaction_id_inside_external_label_witness :
    scanFirst transIdMatchAt ("Your payment has been completed. ".toList ++ ("External Transaction Id".toList ++ ((if true then [':'] else []) ++ (([' '] : List Char) ++ (('7' :: '1' :: '3' :: []) ++ ". Thank you.".toList))))) = some ('7' :: '1' :: '3' :: []) ∧
    (buildRecord { address := none, body := some (String.mk ("Your payment has been completed. ".toList ++ ("External Transaction Id".toList ++ ((if true then [':'] else []) ++ (([' '] : List Char) ++ (('7' :: '1' :: '3' :: []) ++ ". Thank you.".toList)))))), type := none, readable_date := none, contact_name := none }).transaction_id = some (String.mk ('7' :: '1' :: '3' :: [])) :=
  transaction_id_inside_external_label "Your payment has been completed. ".toList
    ([' '] : List Char) true '7' ('1' :: '3' :: []) ". Thank you.".toList
    (by decide) (by decide) (by decide) (by decide)
    (by
      intro a ha
      simp at ha
      subst ha
      decide)
